import Mathlib

/-!
Verification model of the pooler snapshot pipeline.

This file gives a shallow embedding, in Lean 4, of the snapshot-construction
core of the repository: the rate-limit gate of the reserve fetcher, the
trade-volume extraction and snapshot builder, the per-block reserves snapshot
builder, the snapshot worker commit flow, and the whitelisted-token pricing
cascade. Every definition is translated from the corresponding source
function; theorems at the end settle the specification claims against these
definitions.

Numeric convention: the source performs its volume and price arithmetic in
IEEE-754 doubles; the embedding uses exact rationals. All comparisons used by
the embedded control flow (equality with zero, comparison with the literal 1)
agree between the two representations on the inputs considered here.
-/

set_option autoImplicit false

/- ### Rate-limit gate of `get_liquidity_of_each_token_reserve_async`
(`uniswap_functions.py`, lines 598-701).

The per-limit loop calls `custom_limiter.hit`; each call either returns a
boolean (admitted or not), raises one of the caught Redis
connection/timeout/response errors, or raises some other exception which the
code re-raises. The loop variable `can_request` starts `False`; it is set
`True` only by the `else:` clause of the `try`, which Python runs only when
the `try` body finished without an exception and without `break`. -/

inductive HitOutcome where
  | hit (admitted : Bool)
  | redisError
  | otherError
deriving DecidableEq

/-- The `for each_lim in PARSED_LIMITS:` loop, threading `can_request`.
`Except.error` models an exception propagating out of the loop. -/
def rate_limit_check_loop : Bool → List HitOutcome → Except String Bool
  | _, HitOutcome.hit false :: _ => Except.ok false
  | _, HitOutcome.hit true :: rest => rate_limit_check_loop true rest
  | canRequest, HitOutcome.redisError :: rest => rate_limit_check_loop canRequest rest
  | _, HitOutcome.otherError :: _ => Except.error ("rate_limiter_operation_error")
  | canRequest, [] => Except.ok canRequest

/-- The admission decision of `get_liquidity_of_each_token_reserve_async`:
after the loop, `if can_request:` performs the `getReserves` eth_call,
`else:` raises the rate-limit-exhausted exception. `Except.ok ()` stands for
the branch that performs the eth_call. -/
def reserve_fetch_gate (outcomes : List HitOutcome) : Except String Unit :=
  match rate_limit_check_loop false outcomes with
  | Except.error e => Except.error e
  | Except.ok true => Except.ok ()
  | Except.ok false => Except.error ("exhausted_api_key_rate_limit")

/- ### Trade-volume extraction (`uniswap_functions.extract_trade_volume_data`,
lines 292-419).

The decoded `args` of a Swap log, and of a Mint or Burn log. Amount fields
are the raw unsigned 256-bit integers of the ABI decoding. -/

structure SwapArgs where
  sender : String
  toAddr : String
  amount0In : Nat
  amount1In : Nat
  amount0Out : Nat
  amount1Out : Nat
deriving DecidableEq

structure MintBurnArgs where
  amount0 : Nat
  amount1 : Nat
deriving DecidableEq

structure TokenMetadata where
  address : String
  symbol : String
  decimals : Nat
deriving DecidableEq

/-- The token part of `get_pair_per_token_metadata`. -/
structure PairMetadata where
  token0 : TokenMetadata
  token1 : TokenMetadata
deriving DecidableEq

/-- Accumulator of the `for parsed_log_obj_values in log_topic_values:` loop
of the Swap branch: running raw sums and the fee variables. `token0_fee` and
`token1_fee` start as `None` and are overwritten (not accumulated) by each
matching log. -/
structure SwapAccum where
  token0Swapped : Nat
  token1Swapped : Nat
  token0Fee : Option Nat
  token1Fee : Option Nat
deriving DecidableEq

def swap_accum_step (acc : SwapAccum) (l : SwapArgs) : SwapAccum :=
  if l.amount1In = 0 then
    { acc with
      token0Swapped := acc.token0Swapped + l.amount0In
      token1Swapped := acc.token1Swapped + l.amount1Out
      token0Fee := some l.amount0In }
  else if l.amount0In = 0 then
    { acc with
      token0Swapped := acc.token0Swapped + l.amount0Out
      token1Swapped := acc.token1Swapped + l.amount1In
      token1Fee := some l.amount1In }
  else acc

/-- Python truthiness of the integer-or-None fee variables. -/
def pyTruthyNat : Option Nat → Bool
  | none => false
  | some v => v != 0

/-- Return value of `extract_trade_volume_data`. `totalFeeUSD` is present
only on the Swap branch (the Mint/Burn return dict has no `totalFeeUSD`
key). -/
structure TradeVolumeData where
  totalTradesUSD : Rat
  totalFeeUSD : Option Rat
  token0TradeVolume : Rat
  token1TradeVolume : Rat
  token0TradeVolumeUSD : Rat
  token1TradeVolumeUSD : Rat
deriving DecidableEq

/-- The `event_name == 'Swap'` path of `extract_trade_volume_data`. The
prices are the cached `{symbol}-USDT` Redis values: `none` models a cache
miss (`None`), `some p` a stored price (any stored bytes are truthy). The
fee factor `3 / 10` is the literal `0.3` of the source. -/
def extract_trade_volume_data_swap (logs : List SwapArgs) (meta : PairMetadata)
    (token0Price token1Price : Option Rat) : TradeVolumeData :=
  let acc := logs.foldl swap_accum_step ⟨0, 0, none, none⟩
  let token0Swapped : Rat := (acc.token0Swapped : Rat) / 10 ^ meta.token0.decimals
  let token1Swapped : Rat := (acc.token1Swapped : Rat) / 10 ^ meta.token1.decimals
  let tradeVolumeUSD : Rat :=
    match token0Price, token1Price with
    | some p0, _ => token0Swapped * p0
    | none, some p1 => token1Swapped * p1
    | none, none => 0
  let tradeFeeUSD : Rat :=
    if pyTruthyNat acc.token0Fee && token0Price.isSome then
      ((acc.token0Fee.getD 0 : Rat) / 10 ^ meta.token0.decimals) * (3 / 10) *
        token0Price.getD 0
    else if pyTruthyNat acc.token1Fee && token1Price.isSome then
      ((acc.token1Fee.getD 0 : Rat) / 10 ^ meta.token1.decimals) * (3 / 10) *
        token1Price.getD 0
    else 0
  let tradeVolumeToken0USD : Rat :=
    match token0Price with
    | some p0 => token0Swapped * p0
    | none => 0
  let tradeVolumeToken1USD : Rat :=
    match token1Price with
    | some p1 => token1Swapped * p1
    | none => 0
  { totalTradesUSD := tradeVolumeUSD
    totalFeeUSD := some tradeFeeUSD
    token0TradeVolume := token0Swapped
    token1TradeVolume := token1Swapped
    token0TradeVolumeUSD := tradeVolumeToken0USD
    token1TradeVolumeUSD := tradeVolumeToken1USD }

/-- The `event_name == 'Mint' or event_name == 'Burn'` path of
`extract_trade_volume_data`. -/
def extract_trade_volume_data_mint_burn (logs : List MintBurnArgs) (meta : PairMetadata)
    (token0Price token1Price : Option Rat) : TradeVolumeData :=
  let rawToken0 : Nat := (logs.map (fun l => l.amount0)).sum
  let rawToken1 : Nat := (logs.map (fun l => l.amount1)).sum
  let token0Swapped : Rat := (rawToken0 : Rat) / 10 ^ meta.token0.decimals
  let token1Swapped : Rat := (rawToken1 : Rat) / 10 ^ meta.token1.decimals
  let volToken0USD : Rat :=
    match token0Price with
    | some p0 => token0Swapped * p0
    | none => 0
  let volToken1USD : Rat :=
    match token1Price with
    | some p1 => token1Swapped * p1
    | none => 0
  let tradeVolumeUSD : Rat := volToken0USD + volToken1USD
  let tradeVolumeUSD : Rat :=
    if token0Price.isNone || token1Price.isNone then tradeVolumeUSD * 2 else tradeVolumeUSD
  { totalTradesUSD := tradeVolumeUSD
    totalFeeUSD := none
    token0TradeVolume := token0Swapped
    token1TradeVolume := token1Swapped
    token0TradeVolumeUSD := volToken0USD
    token1TradeVolumeUSD := volToken1USD }

/- ### Decoded event records and the per-pair trades result
(`uniswap_functions.get_pair_contract_trades_async`, lines 706-825).

Each entry of a `logs` list is the decoded args merged with
`transactionHash`, `logIndex`, `blockNumber` and the event name. -/

structure SwapLog where
  args : SwapArgs
  transactionHash : String
  logIndex : Nat
  blockNumber : Nat
deriving DecidableEq

structure MintBurnLog where
  args : MintBurnArgs
  transactionHash : String
  logIndex : Nat
  blockNumber : Nat
deriving DecidableEq

/-- One element of the `events` field of a trade-volume snapshot; the
constructor records which event stream the element came from. -/
inductive TradeEventRecord where
  | swapRec (l : SwapLog)
  | mintRec (l : MintBurnLog)
  | burnRec (l : MintBurnLog)
deriving DecidableEq

def TradeEventRecord.blockNumber : TradeEventRecord → Nat
  | TradeEventRecord.swapRec l => l.blockNumber
  | TradeEventRecord.mintRec l => l.blockNumber
  | TradeEventRecord.burnRec l => l.blockNumber

def TradeEventRecord.logIndex : TradeEventRecord → Nat
  | TradeEventRecord.swapRec l => l.logIndex
  | TradeEventRecord.mintRec l => l.logIndex
  | TradeEventRecord.burnRec l => l.logIndex

/-- Lexicographic (blockNumber, logIndex) order between adjacent events. -/
def eventOrderLE (a b : TradeEventRecord) : Prop :=
  a.blockNumber < b.blockNumber ∨
    (a.blockNumber = b.blockNumber ∧ a.logIndex ≤ b.logIndex)

instance : DecidableRel eventOrderLE := fun a b =>
  inferInstanceAs (Decidable (a.blockNumber < b.blockNumber ∨
    (a.blockNumber = b.blockNumber ∧ a.logIndex ≤ b.logIndex)))

/-- The dictionary returned by `get_pair_contract_trades_async`: per event
name the raw `logs` list and the `trades` extraction, plus the `timestamp`
key (block details of `to_block`, `None` when the header fetch failed). -/
structure PairTradesResult where
  swapLogs : List SwapLog
  swapTrades : TradeVolumeData
  mintLogs : List MintBurnLog
  mintTrades : TradeVolumeData
  burnLogs : List MintBurnLog
  burnTrades : TradeVolumeData
  timestamp : Option Nat
deriving DecidableEq

/-- Success path of `get_pair_contract_trades_async`: the three event
streams are fetched, then `extract_trade_volume_data` runs per stream with
the same cached prices. -/
def get_pair_contract_trades_async (swapLogs : List SwapLog)
    (mintLogs burnLogs : List MintBurnLog) (meta : PairMetadata)
    (token0Price token1Price : Option Rat) (blockTimestamp : Option Nat) :
    PairTradesResult :=
  { swapLogs := swapLogs
    swapTrades :=
      extract_trade_volume_data_swap (swapLogs.map (fun l => l.args)) meta
        token0Price token1Price
    mintLogs := mintLogs
    mintTrades :=
      extract_trade_volume_data_mint_burn (mintLogs.map (fun l => l.args)) meta
        token0Price token1Price
    burnLogs := burnLogs
    burnTrades :=
      extract_trade_volume_data_mint_burn (burnLogs.map (fun l => l.args)) meta
        token0Price token1Price
    timestamp := blockTimestamp }

/-- Iteration order of the result dictionary in the builder loop
(`for each_event in trade_vol_processed_snapshot:`, the `timestamp` key is
skipped): insertion order Swap, Mint, Burn. -/
def trade_result_entries (r : PairTradesResult) :
    List (List TradeEventRecord × TradeVolumeData) :=
  [(r.swapLogs.map TradeEventRecord.swapRec, r.swapTrades),
   (r.mintLogs.map TradeEventRecord.mintRec, r.mintTrades),
   (r.burnLogs.map TradeEventRecord.burnRec, r.burnTrades)]

/- ### Message and snapshot models (`message_models` usage in
`callback_modules/pair_total_reserves.py`). -/

/-- `PowerloomCallbackProcessMessage`: one WorkUnit. `end_` is the `end`
field of the source model. -/
structure PowerloomCallbackProcessMessage where
  begin : Nat
  end_ : Nat
  contract : String
  broadcast_id : String
deriving DecidableEq

/-- `UniswapTradesSnapshot`. `chainHeightRange` is the `(begin, end)` pair. -/
structure UniswapTradesSnapshot where
  contract : String
  broadcast_id : String
  chainHeightRange : Nat × Nat
  timestamp : Nat
  totalTrade : Rat
  totalFee : Rat
  token0TradeVolume : Rat
  token1TradeVolume : Rat
  events : List TradeEventRecord
deriving DecidableEq

/-- Rounding of the float format with 6 decimal places applied to the four
totals (`float(f...6f)` in the source). Ties round half away from zero here;
the format-based rounding of the source resolves exact half-ulp ties to even,
a case none of the statements below touches. -/
def round6 (q : Rat) : Rat := ((round (q * 1000000) : Int) : Rat) / 1000000

/-- Accumulation loop of `_construct_trade_volume_epoch_snapshot_data`
(lines 108-123): totals start at zero and each event entry adds its
`trades` values (`totalFeeUSD` through `.get` with default 0) and extends
`final_events_list` with its `logs`. -/
def trade_totals_loop :
    List (List TradeEventRecord × TradeVolumeData) →
    (Rat × Rat × Rat × Rat × List TradeEventRecord) →
    (Rat × Rat × Rat × Rat × List TradeEventRecord)
  | [], acc => acc
  | (logs, trades) :: rest, (usd, fee, vol0, vol1, events) =>
    trade_totals_loop rest
      (usd + trades.totalTradesUSD, fee + trades.totalFeeUSD.getD 0,
       vol0 + trades.token0TradeVolume, vol1 + trades.token1TradeVolume,
       events ++ logs)

/-- Success path of `_construct_trade_volume_epoch_snapshot_data`
(lines 88-141). `wallClock` is the `int(time.time())` fallback captured at
the start of the build; a missing or zero `timestamp` key keeps it. -/
def construct_trade_volume_epoch_snapshot_data
    (msg : PowerloomCallbackProcessMessage) (r : PairTradesResult)
    (wallClock : Nat) : UniswapTradesSnapshot :=
  let acc := trade_totals_loop (trade_result_entries r) (0, 0, 0, 0, [])
  let maxBlockTimestamp : Nat :=
    match r.timestamp with
    | none => wallClock
    | some t => if t = 0 then wallClock else t
  { contract := msg.contract
    broadcast_id := msg.broadcast_id
    chainHeightRange := (msg.begin, msg.end_)
    timestamp := maxBlockTimestamp
    totalTrade := round6 acc.1
    totalFee := round6 acc.2.1
    token0TradeVolume := round6 acc.2.2.1
    token1TradeVolume := round6 acc.2.2.2.1
    events := acc.2.2.2.2 }

/- ### Reserves snapshot builder
(`callback_modules/pair_total_reserves.py`, lines 39-86). -/

/-- Return value of `get_liquidity_of_each_token_reserve_async` as consumed
by the builder: scaled reserves and the optional end-block timestamp
(`None` both when not requested and when the header fetch failed). -/
structure PairReserveTotal where
  token0 : Rat
  token1 : Rat
  timestamp : Option Nat
deriving DecidableEq

/-- `UniswapPairTotalReservesSnapshot`. The reserves maps are kept as
ordered association lists, in insertion order of the build loop. -/
structure UniswapPairTotalReservesSnapshot where
  token0Reserves : List (String × Rat)
  token1Reserves : List (String × Rat)
  chainHeightRange : Nat × Nat
  timestamp : Nat
  contract : String
  broadcast_id : String
deriving DecidableEq

/-- `range(min_chain_height, max_chain_height + 1)` of the build loop. -/
def blockRangeList (b e : Nat) : List Nat := List.range' b (e + 1 - b)

/-- State threaded through the build loop: the two reserves maps, the
timestamp found at the end block (`none` while the wall-clock fallback is
still in force), and whether the timestamp error was logged. -/
structure ReservesLoopState where
  map0 : List (String × Rat)
  map1 : List (String × Rat)
  maxBlockTimestamp : Option Nat
  timestampErrorLogged : Bool
deriving DecidableEq

/-- One successful iteration of the build loop: record the two reserve
entries under the key `block{N}` and, at the end block, either log the
timestamp error (missing or zero timestamp, both falsy in the source) or
adopt the fetched timestamp. -/
def reserves_step (st : ReservesLoopState) (b : Nat) (isEnd : Bool)
    (prt : PairReserveTotal) : ReservesLoopState :=
  let key := "block" ++ toString b
  let st1 : ReservesLoopState :=
    { st with
      map0 := st.map0 ++ [(key, prt.token0)]
      map1 := st.map1 ++ [(key, prt.token1)] }
  if isEnd then
    match prt.timestamp with
    | none => { st1 with timestampErrorLogged := true }
    | some t =>
      if t = 0 then { st1 with timestampErrorLogged := true }
      else { st1 with maxBlockTimestamp := some t }
  else st1

/-- The `for block_num in range(...)` loop of
`_construct_pair_reserves_epoch_snapshot_data`. `fetch b isEnd` is the
reserve query at block `b` (with `fetch_timestamp` set exactly at the end
block); `none` is the exception path, which breaks the loop and fails the
build. -/
def reserves_fetch_loop (fetch : Nat → Bool → Option PairReserveTotal)
    (maxHeight : Nat) : List Nat → ReservesLoopState → Option ReservesLoopState
  | [], st => some st
  | b :: rest, st =>
    match fetch b (b == maxHeight) with
    | none => none
    | some prt =>
      reserves_fetch_loop fetch maxHeight rest (reserves_step st b (b == maxHeight) prt)

/-- Outcome of `_construct_pair_reserves_epoch_snapshot_data`: the snapshot
(`none` when a reserve query failed), whether the timestamp error was
logged, and whether the WorkUnit was pushed to the failed-epochs list. -/
structure ReservesBuildResult where
  snapshot : Option UniswapPairTotalReservesSnapshot
  timestampErrorLogged : Bool
  enqueued : Bool
deriving DecidableEq

def construct_pair_reserves_epoch_snapshot_data
    (fetch : Nat → Bool → Option PairReserveTotal)
    (msg : PowerloomCallbackProcessMessage) (wallClock : Nat)
    (enqueueOnFailure : Bool) : ReservesBuildResult :=
  match reserves_fetch_loop fetch msg.end_ (blockRangeList msg.begin msg.end_)
      ⟨[], [], none, false⟩ with
  | none => ⟨none, false, enqueueOnFailure⟩
  | some st =>
    ⟨some
      { token0Reserves := st.map0
        token1Reserves := st.map1
        chainHeightRange := (msg.begin, msg.end_)
        timestamp := st.maxBlockTimestamp.getD wallClock
        contract := msg.contract
        broadcast_id := msg.broadcast_id },
     st.timestampErrorLogged, false⟩

/- ### Snapshot worker commit flow
(`PairTotalReservesProcessor._on_rabbitmq_message`, lines 150-397). -/

/-- Outcome of an audit-protocol `commit_payload` HTTP call: the call
raised, the response body carried a top-level `message` key, or it
succeeded. -/
inductive CommitOutcome where
  | raised
  | messageResponse
  | okResponse
deriving DecidableEq

/-- Observable side effects of the worker, in program order. -/
inductive WorkerAction where
  | zaddLog (action status : String)
  | setDiffRule (stream contract : String)
  | commitPayload (stream contract : String)
deriving DecidableEq

/-- Python attribute access `pair_total_reserves_epoch_snapshot.contract`:
on `None` it raises `AttributeError` instead of producing a value. -/
def attr_contract (snap : Option UniswapPairTotalReservesSnapshot) :
    Except String String :=
  match snap with
  | some s => Except.ok s.contract
  | none => Except.error ("AttributeError")

/-- Result of one run of the message handler: the actions performed in
order before the handler returned or aborted, and the exception escaping
the handler when it aborts. The commit `except Exception as e:` handlers
(lines 226-242 and 341-357) build an `update_log` that embeds the caught
exception object itself (`exception: e`) and serialize it with
`json.dumps(update_log)`; an exception object is not JSON-serializable,
so `json.dumps` raises `TypeError` before the `zadd` runs: no entry
reaches the broadcast log and the handler aborts on those paths. -/
structure WorkerRun where
  actions : List WorkerAction
  uncaught : Option String
deriving DecidableEq

/-- The trade-volume half of `_on_rabbitmq_message` (lines 284-397). The
`trade_volume` commit takes its contract argument from the reserves
snapshot object (line 333); the argument is evaluated inside the `try`
block, so its `AttributeError` on an absent reserves snapshot is caught by
the same handler as a commit failure — a handler that then aborts with
`TypeError` while serializing the log entry embedding the exception. -/
def trade_volume_part (msg : PowerloomCallbackProcessMessage)
    (reservesSnap : Option UniswapPairTotalReservesSnapshot)
    (tradeSnap : Option UniswapTradesSnapshot)
    (tradeCommit : CommitOutcome) : List WorkerAction × Option String :=
  match tradeSnap with
  | none => ([WorkerAction.zaddLog ("TradeVolume.SnapshotBuild") ("Failed")], none)
  | some _ =>
    let pre : List WorkerAction :=
      [WorkerAction.zaddLog ("TradeVolume.SnapshotBuild") ("Success"),
       WorkerAction.setDiffRule ("trade_volume") msg.contract]
    match attr_contract reservesSnap with
    | Except.error _ => (pre, some ("TypeError"))
    | Except.ok c =>
      match tradeCommit with
      | CommitOutcome.raised =>
        (pre ++ [WorkerAction.commitPayload ("trade_volume") c], some ("TypeError"))
      | CommitOutcome.messageResponse =>
        (pre ++ [WorkerAction.commitPayload ("trade_volume") c,
          WorkerAction.zaddLog ("TradeVolume.SnapshotCommit") ("Failed")], none)
      | CommitOutcome.okResponse =>
        (pre ++ [WorkerAction.commitPayload ("trade_volume") c,
          WorkerAction.zaddLog ("TradeVolume.SnapshotCommit") ("Success")], none)

/-- The body of `_on_rabbitmq_message` after message parsing.
`reservesSnap` and `tradeSnap` are the two build results; `reservesCommit`
and `tradeCommit` the outcomes of the two `commit_payload` calls when
reached. A raised commit exception leads into the handler whose log entry
embeds the exception object, so serialization aborts the whole handler
with `TypeError` (the trade-volume half then never runs); the
message-response and success branches embed only JSON data and their
`zadd` entries are recorded. -/
def on_rabbitmq_message (msg : PowerloomCallbackProcessMessage)
    (reservesSnap : Option UniswapPairTotalReservesSnapshot)
    (tradeSnap : Option UniswapTradesSnapshot)
    (reservesCommit tradeCommit : CommitOutcome) : WorkerRun :=
  match reservesSnap with
  | none =>
    let t := trade_volume_part msg none tradeSnap tradeCommit
    { actions := [WorkerAction.zaddLog ("PairReserves.SnapshotBuild") ("Failed")] ++ t.1
      uncaught := t.2 }
  | some s =>
    let pre : List WorkerAction :=
      [WorkerAction.zaddLog ("PairReserves.SnapshotBuild") ("Success"),
       WorkerAction.setDiffRule ("pair_total_reserves") s.contract,
       WorkerAction.commitPayload ("pair_total_reserves") s.contract]
    match reservesCommit with
    | CommitOutcome.raised => { actions := pre, uncaught := some ("TypeError") }
    | CommitOutcome.messageResponse =>
      let t := trade_volume_part msg (some s) tradeSnap tradeCommit
      { actions :=
          pre ++ [WorkerAction.zaddLog ("PairReserves.SnapshotCommit") ("Failed")] ++ t.1
        uncaught := t.2 }
    | CommitOutcome.okResponse =>
      let t := trade_volume_part msg (some s) tradeSnap tradeCommit
      { actions :=
          pre ++ [WorkerAction.zaddLog ("PairReserves.SnapshotCommit") ("Success")] ++ t.1
        uncaught := t.2 }

/-- Recognizer of a `trade_volume` commit attempt in the action trace. -/
def isTradeVolumeCommit : WorkerAction → Bool
  | WorkerAction.commitPayload s _ => s == "trade_volume"
  | _ => false

/- ### Pricing engine
(`pooler/callback_modules/uniswap/pricing.py`). -/

/-- Scaling of a raw reserve by the token decimals
(`pair_reserves_list[index][i] / 10 ** decimals`). -/
def scaleReserve (r : Nat) (decimals : Nat) : Rat := (r : Rat) / 10 ^ decimals

/-- Branch taken by the per-block body of
`get_token_pair_price_and_white_token_reserves` (lines 69-99): the
zero-reserve branch performs no division; the other two divide. -/
inductive ReservePriceBranch where
  | zeroReserve
  | token0White
  | token1White
deriving DecidableEq

def pair_price_branch (r0 r1 decimals0 decimals1 : Nat) (token0IsWhite : Bool) :
    ReservePriceBranch :=
  if scaleReserve r0 decimals0 = 0 ∨ scaleReserve r1 decimals1 = 0 then
    ReservePriceBranch.zeroReserve
  else if token0IsWhite then ReservePriceBranch.token0White
  else ReservePriceBranch.token1White

/-- Per-block value of `(token_price_dict[b], white_token_reserves_dict[b])`. -/
def pair_price_and_white_reserve (r0 r1 decimals0 decimals1 : Nat)
    (token0IsWhite : Bool) : Rat × Rat :=
  let pr0 := scaleReserve r0 decimals0
  let pr1 := scaleReserve r1 decimals1
  if pr0 = 0 ∨ pr1 = 0 then (0, 0)
  else if token0IsWhite then (pr0 / pr1, pr0)
  else (pr1 / pr0, pr1)

/-- `get_token_pair_price_and_white_token_reserves` (lines 24-101):
`reservesList` is the decoded result of the batched `getReserves` call, one
`(reserve0, reserve1)` per block in order; a short result raises. On
success the two per-block dictionaries are returned as association lists
keyed by block number. -/
def get_token_pair_price_and_white_token_reserves
    (reservesList : List (Nat × Nat)) (fromBlock toBlock : Nat)
    (decimals0 decimals1 : Nat) (token0IsWhite : Bool) :
    Except String (List (Nat × Rat) × List (Nat × Rat)) :=
  if (reservesList.length : Int) < (toBlock : Int) - ((fromBlock : Int) - 1) then
    Except.error ("Unable to get pair price and white token reserves")
  else
    let pairs := (blockRangeList fromBlock toBlock).zip reservesList
    Except.ok
      (pairs.map (fun p =>
        (p.1, (pair_price_and_white_reserve p.2.1 p.2.2 decimals0 decimals1 token0IsWhite).1)),
       pairs.map (fun p =>
        (p.1, (pair_price_and_white_reserve p.2.1 p.2.2 decimals0 decimals1 token0IsWhite).2)))

/-- One whitelist token attempt inside `get_token_price_in_block_range`
(lines 217-279): the factory pair lookup (zero address means skip) and the
three per-block series obtained from the sub-calls, which are total over
the block range. `priceDict` is `white_token_price_dict`, `reservesDict`
is `white_token_reserves_dict` and `derivedEthDict` is
`white_token_derived_eth_dict`. -/
structure WhitelistAttempt where
  pairAddressZero : Bool
  priceDict : Nat → Rat
  reservesDict : Nat → Rat
  derivedEthDict : Nat → Rat

/-- Inner loop over the block range for one whitelist token: fill
`token_eth_price_dict` block by block, breaking with the
`less_than_minimum_liquidity` flag as soon as the white-token reserve in
ETH falls below 1. -/
def fill_token_eth_price (a : WhitelistAttempt) :
    List Nat → List (Nat × Rat) → List (Nat × Rat) × Bool
  | [], acc => (acc, false)
  | b :: rest, acc =>
    if a.reservesDict b * a.derivedEthDict b < 1 then (acc, true)
    else
      fill_token_eth_price a rest
        (acc ++ [(b, a.priceDict b * a.derivedEthDict b)])

/-- The `for white_token in ...uniswap_v2_whitelist:` loop: a zero pair
address skips the token; a below-threshold block resets
`token_eth_price_dict` to empty and tries the next token; otherwise the
loop breaks with the filled dictionary. -/
def whitelist_cascade (blocks : List Nat) :
    List WhitelistAttempt → List (Nat × Rat)
  | [] => []
  | a :: rest =>
    if a.pairAddressZero then whitelist_cascade blocks rest
    else
      let filled := fill_token_eth_price a blocks []
      if filled.2 then whitelist_cascade blocks rest else filled.1

/-- Python `dict.get(key, 0)` on an association list (keys written by the
loops above are unique, so first match suffices). -/
def dictGetD (d : List (Nat × Rat)) (k : Nat) : Rat :=
  match d.find? (fun p => p.1 == k) with
  | some p => p.2
  | none => 0

/-- Recompute path of `get_token_price_in_block_range` for a non-WETH
token (lines 215-294): run the whitelist cascade, then multiply elementwise
by the ETH-USD series when the cascade produced anything, else emit zeros.
`ethUsd` models `eth_usd_price_dict` accessed through `.get(block, 0)`. -/
def get_token_price_in_block_range_recompute (fromBlock toBlock : Nat)
    (attempts : List WhitelistAttempt) (ethUsd : Nat → Rat) :
    List (Nat × Rat) :=
  let blocks := blockRangeList fromBlock toBlock
  let tokenEthPriceDict := whitelist_cascade blocks attempts
  if tokenEthPriceDict.length > 0 then
    blocks.map (fun b => (b, dictGetD tokenEthPriceDict b * ethUsd b))
  else
    blocks.map (fun b => (b, 0))

/-- One member of the per-token price zset
(`...cachedPairBlockHeightTokenPrice`): the JSON payload carries
`blockHeight` and `price`, and the member score written by the cache
write-back equals `blockHeight`. Two members with the same height but
different prices coexist, since the zset dedupes by member, not by score. -/
structure CachedPricePoint where
  blockHeight : Nat
  price : Rat
deriving DecidableEq

/-- `zrangebyscore(name, min=from_block, max=to_block)`: the members whose
score lies in the closed range. Redis returns them score-ordered; the
embedding keeps list order, which the key-set statements below do not
depend on. -/
def zrangebyscore_points (cache : List CachedPricePoint) (mn mx : Nat) :
    List CachedPricePoint :=
  cache.filter (fun p => mn ≤ p.blockHeight && p.blockHeight ≤ mx)

/-- `get_token_price_in_block_range` for a non-WETH token with integer
bounds (lines 169-326): the cached-epoch check (lines 183-204) returns the
decoded members when they are non-empty and exactly `to - (from - 1)` many;
otherwise the price is recomputed through the whitelist cascade. -/
def get_token_price_in_block_range (cache : List CachedPricePoint)
    (fromBlock toBlock : Nat) (attempts : List WhitelistAttempt)
    (ethUsd : Nat → Rat) : List (Nat × Rat) :=
  let cached := zrangebyscore_points cache fromBlock toBlock
  if cached.length ≠ 0 ∧
      (cached.length : Int) = (toBlock : Int) - ((fromBlock : Int) - 1) then
    cached.map (fun p => (p.blockHeight, p.price))
  else
    get_token_price_in_block_range_recompute fromBlock toBlock attempts ethUsd

/-- Key set of a price dictionary built from an association list (the
Python dict comprehension collapses duplicate keys). -/
def priceDictKeys (d : List (Nat × Rat)) : Finset Nat :=
  (d.map Prod.fst).toFinset

/- ### Concrete inputs used in the theorems below. -/

/-- Pair metadata of the specification example: token0 has 18 decimals,
token1 has 6. -/
def c1Meta : PairMetadata :=
  ⟨⟨"0xToken0", "T0", 18⟩, ⟨"0xToken1", "T1", 6⟩⟩

/-- The Swap of the specification example: `amount0In = 10 ^ 18`,
`amount1Out = 2000 * 10 ^ 6`. -/
def c1SwapArgs : SwapArgs := ⟨"0xSender", "0xTo", 10 ^ 18, 0, 0, 2000 * 10 ^ 6⟩

def c1SwapLog : SwapLog := ⟨c1SwapArgs, "0xTxHash", 7, 105⟩

def c1Msg : PowerloomCallbackProcessMessage := ⟨100, 109, "0xPair", "B1"⟩

/-- Epoch 100-109 with the single example Swap; token0 priced 2.0 USD,
token1 priced 1.0 USD. -/
def c1Result : PairTradesResult :=
  get_pair_contract_trades_async [c1SwapLog] [] [] c1Meta (some 2) (some 1) (some 500)

def c4Meta : PairMetadata :=
  ⟨⟨"0xTokA", "TA", 1⟩, ⟨"0xTokB", "TB", 1⟩⟩

/-- A Swap at block 105, log index 0. -/
def c4SwapLog : SwapLog := ⟨⟨"0xA", "0xB", 10, 0, 0, 20⟩, "0xTx1", 0, 105⟩

/-- A Mint at the earlier block 100, log index 0. -/
def c4MintLog : MintBurnLog := ⟨⟨5, 6⟩, "0xTx2", 0, 100⟩

def c4Msg : PowerloomCallbackProcessMessage := ⟨100, 109, "0xPair4", "B4"⟩

def c4Result : PairTradesResult :=
  get_pair_contract_trades_async [c4SwapLog] [c4MintLog] [] c4Meta (some 2) (some 1) (some 400)

/-- A reserves snapshot whose `contract` differs from the WorkUnit
contract, to separate the two possible argument sources. -/
def c5Reserves : UniswapPairTotalReservesSnapshot :=
  ⟨[("block1", 5)], [("block1", 6)], (1, 1), 99, "0xReservesContract", "B5"⟩

def c5Trades : UniswapTradesSnapshot :=
  ⟨"0xWorkUnitContract", "B5", (1, 1), 99, 0, 0, 0, 0, []⟩

def c5Msg : PowerloomCallbackProcessMessage := ⟨1, 1, "0xWorkUnitContract", "B5"⟩

def c10Msg : PowerloomCallbackProcessMessage := ⟨5, 6, "0xPair10", "B10"⟩

/-- A trade-volume snapshot that built successfully while the reserves
snapshot build failed. -/
def c10Trades : UniswapTradesSnapshot :=
  ⟨"0xPair10", "B10", (5, 6), 77, 0, 0, 0, 0, []⟩

/-- Reserve fetch that succeeds at every block and returns a timestamp
exactly at the end block. -/
def c6Fetch : Nat → Bool → Option PairReserveTotal :=
  fun _ isEnd => some ⟨3, 4, if isEnd then some 77 else none⟩

def c6Msg : PowerloomCallbackProcessMessage := ⟨100, 102, "0xPair6", "B6"⟩

/-- Two cached members with the same block height 1 and different prices:
both fall in the score range `[1, 2]`, so the cached-epoch length check
passes while block 2 has no entry. -/
def c7DupCache : List CachedPricePoint := [⟨1, 1⟩, ⟨1, 2⟩]

def c7GoodCache : List CachedPricePoint := [⟨1, 5⟩, ⟨2, 7⟩]

def c8ReservesList : List (Nat × Nat) := [(0, 5), (3, 0)]

/-- Reserve fetch that succeeds everywhere but never yields a block
timestamp (the `get_block` call inside the fetch failed). -/
def c9Fetch : Nat → Bool → Option PairReserveTotal := fun _ _ => some ⟨3, 4, none⟩

def c9Msg : PowerloomCallbackProcessMessage := ⟨200, 201, "0xPair9", "B9"⟩

/-- Whitelist attempt whose reserve-in-ETH is 1/2 < 1 at every block. -/
def c2AttemptLow : WhitelistAttempt :=
  ⟨false, fun _ => 5, fun _ => 1 / 2, fun _ => 1⟩

/-- Whitelist attempt skipped because the factory returned the zero pair
address. -/
def c2AttemptSkip : WhitelistAttempt :=
  ⟨true, fun _ => 7, fun _ => 9, fun _ => 9⟩

/- ### Helper lemmas. -/

theorem trade_totals_loop_events (entries : List (List TradeEventRecord × TradeVolumeData)) :
    ∀ usd fee v0 v1 evs,
      (trade_totals_loop entries (usd, fee, v0, v1, evs)).2.2.2.2 =
        evs ++ (entries.map Prod.fst).flatten := by
  induction entries with
  | nil => intro usd fee v0 v1 evs; simp [trade_totals_loop]
  | cons e rest ih =>
    intro usd fee v0 v1 evs
    cases e with
    | mk logs trades =>
      simp only [trade_totals_loop, ih, List.map_cons, List.flatten_cons,
        List.append_assoc]

theorem fill_token_eth_price_flag (a : WhitelistAttempt) :
    ∀ (blocks : List Nat) (acc : List (Nat × Rat)),
      (∃ b ∈ blocks, a.reservesDict b * a.derivedEthDict b < 1) →
      (fill_token_eth_price a blocks acc).2 = true := by
  intro blocks
  induction blocks with
  | nil => intro acc h; simp at h
  | cons b rest ih =>
    intro acc h
    by_cases hb : a.reservesDict b * a.derivedEthDict b < 1
    · simp [fill_token_eth_price, hb]
    · obtain ⟨c, hc, hlt⟩ := h
      rcases List.mem_cons.mp hc with rfl | hc2
      · exact absurd hlt hb
      · simp only [fill_token_eth_price, if_neg hb]
        exact ih _ ⟨c, hc2, hlt⟩

theorem whitelist_cascade_abandon (blocks : List Nat) (a : WhitelistAttempt)
    (rest : List WhitelistAttempt) (hz : a.pairAddressZero = false)
    (hbelow : ∃ b ∈ blocks, a.reservesDict b * a.derivedEthDict b < 1) :
    whitelist_cascade blocks (a :: rest) = whitelist_cascade blocks rest := by
  have hflag := fill_token_eth_price_flag a blocks [] hbelow
  simp [whitelist_cascade, hz, hflag]

theorem whitelist_cascade_all_abandoned (blocks : List Nat) :
    ∀ attempts : List WhitelistAttempt,
      (∀ w ∈ attempts, w.pairAddressZero = false →
        ∃ b ∈ blocks, w.reservesDict b * w.derivedEthDict b < 1) →
      whitelist_cascade blocks attempts = [] := by
  intro attempts
  induction attempts with
  | nil => intro _; rfl
  | cons w rest ih =>
    intro h
    by_cases hz : w.pairAddressZero = true
    · simp only [whitelist_cascade, if_pos hz]
      exact ih fun x hx => h x (List.mem_cons_of_mem w hx)
    · have hz2 : w.pairAddressZero = false := by
        cases hw : w.pairAddressZero
        · rfl
        · exact absurd hw hz
      have hb := h w (List.mem_cons_self w rest) hz2
      rw [whitelist_cascade_abandon blocks w rest hz2 hb]
      exact ih fun x hx => h x (List.mem_cons_of_mem w hx)

theorem blockRangeList_toFinset (a b : Nat) :
    (blockRangeList a b).toFinset = Finset.Icc a b := by
  ext n
  simp only [blockRangeList, List.mem_toFinset, List.mem_range'_1, Finset.mem_Icc]
  omega

theorem blockRangeList_length (a b : Nat) :
    (blockRangeList a b).length = b + 1 - a := by
  simp [blockRangeList]

theorem zrangebyscore_points_bounds (cache : List CachedPricePoint) (mn mx : Nat)
    (p : CachedPricePoint) (hp : p ∈ zrangebyscore_points cache mn mx) :
    mn ≤ p.blockHeight ∧ p.blockHeight ≤ mx := by
  have h := (List.mem_filter.mp hp).2
  simpa using h

theorem priceDictKeys_of_map (l : List Nat) (f : Nat → Rat) :
    priceDictKeys (l.map (fun b => (b, f b))) = l.toFinset := by
  unfold priceDictKeys
  rw [List.map_map]
  have h : (Prod.fst ∘ fun b => (b, f b)) = id := rfl
  rw [h, List.map_id]

theorem priceDictKeys_of_points (l : List CachedPricePoint) :
    priceDictKeys (l.map (fun p => (p.blockHeight, p.price))) =
      (l.map (fun p => p.blockHeight)).toFinset := by
  unfold priceDictKeys
  rw [List.map_map]
  rfl

theorem reserves_step_maps (st : ReservesLoopState) (b : Nat) (e : Bool)
    (prt : PairReserveTotal) :
    (reserves_step st b e prt).map0 = st.map0 ++ [("block" ++ toString b, prt.token0)] ∧
    (reserves_step st b e prt).map1 = st.map1 ++ [("block" ++ toString b, prt.token1)] := by
  unfold reserves_step
  cases e
  · exact ⟨rfl, rfl⟩
  · cases prt.timestamp with
    | none => exact ⟨rfl, rfl⟩
    | some t =>
      by_cases h0 : t = 0 <;> simp [h0]

theorem reserves_step_ts_notend (st : ReservesLoopState) (b : Nat)
    (prt : PairReserveTotal) :
    (reserves_step st b false prt).maxBlockTimestamp = st.maxBlockTimestamp ∧
    (reserves_step st b false prt).timestampErrorLogged = st.timestampErrorLogged :=
  ⟨rfl, rfl⟩

theorem reserves_step_ts_falsy (st : ReservesLoopState) (b : Nat)
    (prt : PairReserveTotal) (h : prt.timestamp = none ∨ prt.timestamp = some 0) :
    (reserves_step st b true prt).maxBlockTimestamp = st.maxBlockTimestamp ∧
    (reserves_step st b true prt).timestampErrorLogged = true := by
  unfold reserves_step
  rcases h with h | h <;> simp [h]

theorem reserves_fetch_loop_keys (fetch : Nat → Bool → Option PairReserveTotal)
    (maxHeight : Nat) :
    ∀ (blocks : List Nat) (st : ReservesLoopState),
      (∀ b ∈ blocks, (fetch b (b == maxHeight)).isSome) →
      ∃ st2, reserves_fetch_loop fetch maxHeight blocks st = some st2 ∧
        st2.map0.map Prod.fst =
          st.map0.map Prod.fst ++ blocks.map (fun b => "block" ++ toString b) ∧
        st2.map1.map Prod.fst =
          st.map1.map Prod.fst ++ blocks.map (fun b => "block" ++ toString b) := by
  intro blocks
  induction blocks with
  | nil => intro st _; exact ⟨st, rfl, by simp, by simp⟩
  | cons b rest ih =>
    intro st hall
    obtain ⟨prt, hprt⟩ :=
      Option.isSome_iff_exists.mp (hall b (List.mem_cons_self b rest))
    obtain ⟨st2, hrun, hm0, hm1⟩ :=
      ih (reserves_step st b (b == maxHeight) prt)
        (fun x hx => hall x (List.mem_cons_of_mem b hx))
    refine ⟨st2, ?_, ?_, ?_⟩
    · simp only [reserves_fetch_loop, hprt]
      exact hrun
    · rw [hm0, (reserves_step_maps st b (b == maxHeight) prt).1]
      simp [List.append_assoc]
    · rw [hm1, (reserves_step_maps st b (b == maxHeight) prt).2]
      simp [List.append_assoc]

theorem reserves_fetch_loop_timestamp (fetch : Nat → Bool → Option PairReserveTotal)
    (maxHeight : Nat)
    (hts : ∀ prt, fetch maxHeight true = some prt →
      prt.timestamp = none ∨ prt.timestamp = some 0) :
    ∀ (blocks : List Nat) (st st2 : ReservesLoopState),
      reserves_fetch_loop fetch maxHeight blocks st = some st2 →
      st2.maxBlockTimestamp = st.maxBlockTimestamp ∧
      (st2.timestampErrorLogged = true ↔
        (st.timestampErrorLogged = true ∨ maxHeight ∈ blocks)) := by
  intro blocks
  induction blocks with
  | nil =>
    intro st st2 h
    simp only [reserves_fetch_loop, Option.some.injEq] at h
    subst h
    simp
  | cons b rest ih =>
    intro st st2 h
    simp only [reserves_fetch_loop] at h
    cases hprt : fetch b (b == maxHeight) with
    | none => rw [hprt] at h; exact absurd h (by simp)
    | some prt =>
      rw [hprt] at h
      have hih := ih (reserves_step st b (b == maxHeight) prt) st2 h
      by_cases hb : b = maxHeight
      · subst hb
        have hbeq : (b == b) = true := by simp
        rw [hbeq] at hih hprt
        have hfalsy := hts prt hprt
        have hstep := reserves_step_ts_falsy st b prt hfalsy
        constructor
        · rw [hih.1, hstep.1]
        · rw [hih.2, hstep.2]
          simp [List.mem_cons]
      · have hbeq : (b == maxHeight) = false := by
          simp [hb]
        rw [hbeq] at hih
        have hstep := reserves_step_ts_notend st b prt
        constructor
        · rw [hih.1, hstep.1]
        · rw [hih.2, hstep.2]
          simp only [List.mem_cons]
          constructor
          · rintro (h1 | h2)
            · exact Or.inl h1
            · exact Or.inr (Or.inr h2)
          · rintro (h1 | h2 | h3)
            · exact Or.inl h1
            · exact absurd h2.symm hb
            · exact Or.inr h3

theorem pair_price_and_white_reserve_zero (r0 r1 decimals0 decimals1 : Nat)
    (w : Bool) (h : scaleReserve r0 decimals0 = 0 ∨ scaleReserve r1 decimals1 = 0) :
    pair_price_and_white_reserve r0 r1 decimals0 decimals1 w = (0, 0) := by
  simp [pair_price_and_white_reserve, h]

theorem pair_price_branch_zero (r0 r1 decimals0 decimals1 : Nat) (w : Bool)
    (h : scaleReserve r0 decimals0 = 0 ∨ scaleReserve r1 decimals1 = 0) :
    pair_price_branch r0 r1 decimals0 decimals1 w = ReservePriceBranch.zeroReserve := by
  simp [pair_price_branch, h]

/- ### Claim theorems. -/

/-- Claim C1: the specification asserts a swap fee of 0.30 percent of the
normalized input, giving `total_fee_usd = 0.006` for one Swap with
`amount0In = 10 ^ 18` on an 18-decimal token priced 2.0 USD. The code
multiplies the normalized input by the literal `0.3` (30 percent), so both
`extract_trade_volume_data` and the built snapshot report a fee of
`3 / 5 = 0.6`, one hundred times the claimed `6 / 1000 = 0.006`. -/
theorem claim_C1_swap_fee_at_spec_example :
    (extract_trade_volume_data_swap [c1SwapArgs] c1Meta (some 2) (some 1)).totalFeeUSD =
      some (3 / 5) ∧
    (construct_trade_volume_epoch_snapshot_data c1Msg c1Result 50).totalFee = 3 / 5 ∧
    ((3 : Rat) / 5) ≠ 6 / 1000 := by
  refine ⟨?_, ?_, by norm_num⟩
  · simp only [extract_trade_volume_data_swap, c1SwapArgs, c1Meta,
      List.foldl_cons, List.foldl_nil, swap_accum_step, pyTruthyNat]
    norm_num
  · simp only [construct_trade_volume_epoch_snapshot_data, trade_result_entries,
      trade_totals_loop, c1Result, get_pair_contract_trades_async,
      extract_trade_volume_data_swap, extract_trade_volume_data_mint_burn,
      c1SwapLog, c1SwapArgs, c1Meta, List.map_cons, List.map_nil,
      List.foldl_cons, List.foldl_nil, swap_accum_step, pyTruthyNat, round6]
    norm_num [round_eq]

/-- Claim C3: the specification asserts that a store (Redis) error during
the rate-limit check admits the request. In the code a caught Redis error
skips the `else:` clause that sets `can_request = True`, so when every
per-limit check raises a Redis error the gate raises the
rate-limit-exhausted exception instead of performing the eth_call. -/
theorem claim_C3_redis_error_gate_denies :
    reserve_fetch_gate [HitOutcome.redisError] =
      Except.error ("exhausted_api_key_rate_limit") ∧
    reserve_fetch_gate [HitOutcome.redisError, HitOutcome.redisError] =
      Except.error ("exhausted_api_key_rate_limit") :=
  ⟨rfl, rfl⟩

/-- Claim C4, counterexample: with one Swap at block 105 and one Mint at
block 100 the `events` field is not ordered by (block number, log index):
the adjacent pair (105, 0), (100, 0) violates the lexicographic order. -/
theorem claim_C4_counterexample_not_sorted :
    ¬ List.Chain' eventOrderLE
      (construct_trade_volume_epoch_snapshot_data c4Msg c4Result 50).events := by
  intro h
  have he : (construct_trade_volume_epoch_snapshot_data c4Msg c4Result 50).events =
      [TradeEventRecord.swapRec c4SwapLog, TradeEventRecord.mintRec c4MintLog] := rfl
  rw [he] at h
  have hR := (List.chain'_cons.mp h).1
  rcases hR with h1 | ⟨h1, _⟩ <;>
    simp [TradeEventRecord.blockNumber, c4SwapLog, c4MintLog] at h1

/-- Claim C4, amended: the `events` field is the concatenation of the
decoded Swap records, then the Mint records, then the Burn records, each
stream in its fetched order — grouped by event type, not globally sorted
by (block number, log index). -/
theorem claim_C4_events_grouped_by_type (msg : PowerloomCallbackProcessMessage)
    (r : PairTradesResult) (wallClock : Nat) :
    (construct_trade_volume_epoch_snapshot_data msg r wallClock).events =
      r.swapLogs.map TradeEventRecord.swapRec ++
        r.mintLogs.map TradeEventRecord.mintRec ++
        r.burnLogs.map TradeEventRecord.burnRec := by
  show (trade_totals_loop (trade_result_entries r) (0, 0, 0, 0, [])).2.2.2.2 = _
  rw [trade_totals_loop_events]
  simp [trade_result_entries, List.append_assoc]

/-- Claim C2: a whitelist token whose per-block reserve-in-ETH drops below
1 at any block of the range contributes nothing (the partially filled
dictionary is discarded and the next token is tried), and when every
non-skipped whitelist token has such a block the returned map is 0 at
every block of the range. -/
theorem claim_C2_whitelist_no_partial_fill (fromBlock toBlock : Nat)
    (a : WhitelistAttempt) (rest attempts : List WhitelistAttempt)
    (ethUsd : Nat → Rat) :
    (a.pairAddressZero = false →
      (∃ b ∈ blockRangeList fromBlock toBlock,
        a.reservesDict b * a.derivedEthDict b < 1) →
      whitelist_cascade (blockRangeList fromBlock toBlock) (a :: rest) =
        whitelist_cascade (blockRangeList fromBlock toBlock) rest) ∧
    ((∀ w ∈ attempts, w.pairAddressZero = false →
        ∃ b ∈ blockRangeList fromBlock toBlock,
          w.reservesDict b * w.derivedEthDict b < 1) →
      get_token_price_in_block_range_recompute fromBlock toBlock attempts ethUsd =
        (blockRangeList fromBlock toBlock).map (fun b => (b, (0 : Rat)))) := by
  constructor
  · intro hz hb
    exact whitelist_cascade_abandon _ a rest hz hb
  · intro hall
    have hcas := whitelist_cascade_all_abandoned _ attempts hall
    simp [get_token_price_in_block_range_recompute, hcas]

/-- Witness for claim C2 at a concrete whitelist: an attempt with
reserve-in-ETH 1/2 at every block is abandoned in favor of the rest, and a
whitelist where every non-skipped attempt is below threshold prices every
block of 1..2 at zero. -/
theorem claim_C2_witness :
    whitelist_cascade (blockRangeList 1 2) [c2AttemptLow, c2AttemptSkip] =
      whitelist_cascade (blockRangeList 1 2) [c2AttemptSkip] ∧
    get_token_price_in_block_range_recompute 1 2 [c2AttemptLow, c2AttemptSkip]
        (fun _ => 4) =
      (blockRangeList 1 2).map (fun b => (b, (0 : Rat))) := by
  have h := claim_C2_whitelist_no_partial_fill 1 2 c2AttemptLow [c2AttemptSkip]
    [c2AttemptLow, c2AttemptSkip] (fun _ => 4)
  have hlow : ∃ b ∈ blockRangeList 1 2,
      c2AttemptLow.reservesDict b * c2AttemptLow.derivedEthDict b < 1 :=
    ⟨1, by decide, by norm_num [c2AttemptLow]⟩
  refine ⟨h.1 rfl hlow, h.2 ?_⟩
  intro w hw
  rcases List.mem_cons.mp hw with rfl | hw2
  · intro _
    exact hlow
  · rcases List.mem_cons.mp hw2 with rfl | hw3
    · intro hz
      simp [c2AttemptSkip] at hz
    · simp at hw3

/-- Claim C6: when every reserve query of the epoch succeeds and
`begin <= end`, the two reserves maps of the built snapshot have exactly
the keys `block{begin}` through `block{end}` in order, hence
`end - begin + 1` entries each. -/
theorem claim_C6_reserves_snapshot_keys
    (fetch : Nat → Bool → Option PairReserveTotal)
    (msg : PowerloomCallbackProcessMessage) (wallClock : Nat) (enq : Bool)
    (h1 : msg.begin ≤ msg.end_)
    (h2 : ∀ b ∈ blockRangeList msg.begin msg.end_,
      (fetch b (b == msg.end_)).isSome) :
    ((construct_pair_reserves_epoch_snapshot_data fetch msg wallClock enq).snapshot.map
        (fun s => s.token0Reserves.map Prod.fst)) =
      some ((blockRangeList msg.begin msg.end_).map (fun b => "block" ++ toString b)) ∧
    ((construct_pair_reserves_epoch_snapshot_data fetch msg wallClock enq).snapshot.map
        (fun s => s.token1Reserves.map Prod.fst)) =
      some ((blockRangeList msg.begin msg.end_).map (fun b => "block" ++ toString b)) ∧
    ((construct_pair_reserves_epoch_snapshot_data fetch msg wallClock enq).snapshot.map
        (fun s => (s.token0Reserves.length, s.token1Reserves.length))) =
      some (msg.end_ - msg.begin + 1, msg.end_ - msg.begin + 1) := by
  obtain ⟨st2, hrun, hm0, hm1⟩ :=
    reserves_fetch_loop_keys fetch msg.end_ (blockRangeList msg.begin msg.end_)
      ⟨[], [], none, false⟩ h2
  have hkeys : ((blockRangeList msg.begin msg.end_).map
      (fun b => "block" ++ toString b)).length = msg.end_ - msg.begin + 1 := by
    rw [List.length_map, blockRangeList_length]
    omega
  have hlen0 : st2.map0.length = msg.end_ - msg.begin + 1 := by
    have := congrArg List.length hm0
    simpa using this.trans hkeys
  have hlen1 : st2.map1.length = msg.end_ - msg.begin + 1 := by
    have := congrArg List.length hm1
    simpa using this.trans hkeys
  unfold construct_pair_reserves_epoch_snapshot_data
  rw [hrun]
  refine ⟨?_, ?_, ?_⟩
  · simpa using hm0
  · simpa using hm1
  · simp [hlen0, hlen1]

/-- Witness for claim C6: epoch 100..102 with an everywhere-successful
fetch yields maps keyed block100, block101, block102. -/
theorem claim_C6_witness :
    ((construct_pair_reserves_epoch_snapshot_data c6Fetch c6Msg 42 true).snapshot.map
        (fun s => s.token0Reserves.map Prod.fst)) =
      some ((blockRangeList 100 102).map (fun b => "block" ++ toString b)) ∧
    ((construct_pair_reserves_epoch_snapshot_data c6Fetch c6Msg 42 true).snapshot.map
        (fun s => s.token1Reserves.map Prod.fst)) =
      some ((blockRangeList 100 102).map (fun b => "block" ++ toString b)) ∧
    ((construct_pair_reserves_epoch_snapshot_data c6Fetch c6Msg 42 true).snapshot.map
        (fun s => (s.token0Reserves.length, s.token1Reserves.length))) =
      some (3, 3) :=
  claim_C6_reserves_snapshot_keys c6Fetch c6Msg 42 true (by decide)
    (fun b _ => rfl)

/-- Claim C9: when every reserve query succeeds but the end-block query
carries no timestamp, the snapshot is still produced, its timestamp is the
wall-clock value captured at the start of the build, and the timestamp
error is logged. -/
theorem claim_C9_timestamp_fallback
    (fetch : Nat → Bool → Option PairReserveTotal)
    (msg : PowerloomCallbackProcessMessage) (wallClock : Nat) (enq : Bool)
    (prt : PairReserveTotal)
    (h1 : msg.begin ≤ msg.end_)
    (h2 : ∀ b ∈ blockRangeList msg.begin msg.end_,
      (fetch b (b == msg.end_)).isSome)
    (h3 : fetch msg.end_ true = some prt) (h4 : prt.timestamp = none) :
    ((construct_pair_reserves_epoch_snapshot_data fetch msg wallClock enq).snapshot.map
        (fun s => s.timestamp)) = some wallClock ∧
    (construct_pair_reserves_epoch_snapshot_data fetch msg wallClock enq).timestampErrorLogged =
      true := by
  obtain ⟨st2, hrun, _, _⟩ :=
    reserves_fetch_loop_keys fetch msg.end_ (blockRangeList msg.begin msg.end_)
      ⟨[], [], none, false⟩ h2
  have hts : ∀ p, fetch msg.end_ true = some p →
      p.timestamp = none ∨ p.timestamp = some 0 := by
    intro p hp
    rw [h3] at hp
    injection hp with hp2
    subst hp2
    exact Or.inl h4
  have htl := reserves_fetch_loop_timestamp fetch msg.end_ hts
    (blockRangeList msg.begin msg.end_) ⟨[], [], none, false⟩ st2 hrun
  have hmem : msg.end_ ∈ blockRangeList msg.begin msg.end_ := by
    simp only [blockRangeList, List.mem_range'_1]
    omega
  unfold construct_pair_reserves_epoch_snapshot_data
  rw [hrun]
  constructor
  · simp [htl.1]
  · exact htl.2.mpr (Or.inr hmem)

/-- Witness for claim C9: epoch 200..201 with reserve queries that never
return a timestamp falls back to wall clock 42 and logs the error. -/
theorem claim_C9_witness :
    ((construct_pair_reserves_epoch_snapshot_data c9Fetch c9Msg 42 false).snapshot.map
        (fun s => s.timestamp)) = some 42 ∧
    (construct_pair_reserves_epoch_snapshot_data c9Fetch c9Msg 42 false).timestampErrorLogged =
      true :=
  claim_C9_timestamp_fallback c9Fetch c9Msg 42 false ⟨3, 4, none⟩ (by decide)
    (fun b _ => rfl) rfl rfl

/-- Claim C5: every `trade_volume` commit attempt of the worker passes the
contract field of the reserves snapshot object, so a commit attempt with
contract `c` implies the reserves snapshot is present with contract `c`,
whatever the WorkUnit carries. -/
theorem claim_C5_trade_commit_contract_source
    (msg : PowerloomCallbackProcessMessage)
    (rs : Option UniswapPairTotalReservesSnapshot)
    (ts : Option UniswapTradesSnapshot) (rc tc : CommitOutcome) (c : String)
    (h : WorkerAction.commitPayload ("trade_volume") c ∈
      (on_rabbitmq_message msg rs ts rc tc).actions) :
    rs.map (fun s => s.contract) = some c := by
  cases rs with
  | none =>
    cases ts with
    | none => simp [on_rabbitmq_message, trade_volume_part] at h
    | some t => simp [on_rabbitmq_message, trade_volume_part, attr_contract] at h
  | some s =>
    cases ts with
    | none =>
      cases rc <;> simp [on_rabbitmq_message, trade_volume_part] at h
    | some t =>
      cases rc <;> cases tc <;>
        simp [on_rabbitmq_message, trade_volume_part, attr_contract] at h <;>
        simp [h]

/-- Witness for claim C5: a WorkUnit whose contract differs from the
reserves snapshot contract still commits `trade_volume` under the reserves
snapshot contract. -/
theorem claim_C5_witness :
    (some c5Reserves).map (fun s => s.contract) = some ("0xReservesContract") :=
  claim_C5_trade_commit_contract_source c5Msg (some c5Reserves) (some c5Trades)
    CommitOutcome.okResponse CommitOutcome.okResponse "0xReservesContract"
    (by simp [on_rabbitmq_message, trade_volume_part, attr_contract, c5Reserves,
      c5Trades, c5Msg])

/-- Claim C10, counterexample: with the reserves snapshot absent and the
trade-volume snapshot built, no `TradeVolume.SnapshotCommit` entry with
status Failed is recorded in the broadcast log — serializing the log entry
that embeds the caught `AttributeError` raises `TypeError` before the
`zadd`, so the handler aborts with nothing written. -/
theorem claim_C10_counterexample_no_failed_entry :
    WorkerAction.zaddLog ("TradeVolume.SnapshotCommit") ("Failed") ∉
      (on_rabbitmq_message c10Msg none (some c10Trades) CommitOutcome.okResponse
        CommitOutcome.okResponse).actions := by
  decide

/-- Claim C10, amended: when the reserves snapshot build failed but the
trade-volume snapshot build succeeded, evaluating the commit contract
argument raises `AttributeError` and no `trade_volume` commit is attempted
(so the commit can never succeed); the exception is caught by the commit
handler, but instead of a `TradeVolume.SnapshotCommit` Failed entry the
broadcast log gets nothing: `json.dumps` raises `TypeError` on the log
entry embedding the exception object and the handler aborts. -/
theorem claim_C10_absent_reserves_aborts_trade_commit
    (msg : PowerloomCallbackProcessMessage) (t : UniswapTradesSnapshot)
    (rc tc : CommitOutcome) :
    attr_contract none = Except.error ("AttributeError") ∧
    (on_rabbitmq_message msg none (some t) rc tc).actions.filter
      (fun a => isTradeVolumeCommit a) = [] ∧
    WorkerAction.zaddLog ("TradeVolume.SnapshotCommit") ("Failed") ∉
      (on_rabbitmq_message msg none (some t) rc tc).actions ∧
    (on_rabbitmq_message msg none (some t) rc tc).uncaught = some ("TypeError") := by
  refine ⟨rfl, rfl, ?_, rfl⟩
  simp [on_rabbitmq_message, trade_volume_part, attr_contract]

/-- Claim C7, counterexample: a price cache holding two members with the
same block height 1 (written by two recomputations that produced different
prices) has two members with scores in [1, 2], so the cached-epoch length
check passes, yet the returned dictionary has no entry for block 2: its
key set is not 1..2. -/
theorem claim_C7_counterexample_duplicate_height :
    priceDictKeys (get_token_price_in_block_range c7DupCache 1 2 [] (fun _ => 0)) ≠
      Finset.Icc 1 2 := by
  decide

/-- Claim C7, amended: on the recompute path the key set of
`get_token_price_in_block_range` is exactly from..to unconditionally, and
on the cache-hit path it is exactly from..to provided the cached members
in score range have pairwise distinct block heights; with duplicate heights
the length check can pass while a block of the range is missing. -/
theorem claim_C7_price_domain (cache : List CachedPricePoint)
    (fromBlock toBlock : Nat) (attempts : List WhitelistAttempt)
    (ethUsd : Nat → Rat)
    (hnd : ((zrangebyscore_points cache fromBlock toBlock).map
      (fun p => p.blockHeight)).Nodup) :
    priceDictKeys
        (get_token_price_in_block_range cache fromBlock toBlock attempts ethUsd) =
      Finset.Icc fromBlock toBlock := by
  simp only [get_token_price_in_block_range]
  by_cases hhit : (zrangebyscore_points cache fromBlock toBlock).length ≠ 0 ∧
      ((zrangebyscore_points cache fromBlock toBlock).length : Int) =
        (toBlock : Int) - ((fromBlock : Int) - 1)
  · rw [if_pos hhit, priceDictKeys_of_points]
    apply Finset.eq_of_subset_of_card_le
    · intro n hn
      rw [List.mem_toFinset] at hn
      obtain ⟨p, hp, rfl⟩ := List.mem_map.mp hn
      rw [Finset.mem_Icc]
      exact zrangebyscore_points_bounds cache fromBlock toBlock p hp
    · rw [List.toFinset_card_of_nodup hnd, List.length_map, Nat.card_Icc]
      have h1 := hhit.1
      have h2 := hhit.2
      omega
  · rw [if_neg hhit]
    simp only [get_token_price_in_block_range_recompute]
    by_cases hlen :
        (whitelist_cascade (blockRangeList fromBlock toBlock) attempts).length > 0
    · rw [if_pos hlen, priceDictKeys_of_map, blockRangeList_toFinset]
    · rw [if_neg hlen, priceDictKeys_of_map, blockRangeList_toFinset]

/-- Witness for claim C7: a well-formed two-point cache over 1..2 hits the
cache and returns exactly the keys 1..2. -/
theorem claim_C7_witness :
    priceDictKeys (get_token_price_in_block_range c7GoodCache 1 2 [] (fun _ => 0)) =
      Finset.Icc 1 2 :=
  claim_C7_price_domain c7GoodCache 1 2 [] (fun _ => 0) (by decide)

/-- Claim C8: in the per-block reserve computation, any block whose scaled
reserves include a zero takes the division-free zero branch, contributing
price 0 and white-token reserve 0, while every block of the range is still
present in both returned dictionaries. -/
theorem claim_C8_zero_reserve_blocks
    (reservesList : List (Nat × Nat))
    (fromBlock toBlock decimals0 decimals1 : Nat) (w : Bool)
    (td wd : List (Nat × Rat))
    (hok : get_token_pair_price_and_white_token_reserves reservesList fromBlock
      toBlock decimals0 decimals1 w = Except.ok (td, wd)) :
    (td.map Prod.fst = blockRangeList fromBlock toBlock ∧
     wd.map Prod.fst = blockRangeList fromBlock toBlock) ∧
    ∀ b r0 r1,
      (b, (r0, r1)) ∈ (blockRangeList fromBlock toBlock).zip reservesList →
      (scaleReserve r0 decimals0 = 0 ∨ scaleReserve r1 decimals1 = 0) →
      pair_price_branch r0 r1 decimals0 decimals1 w =
          ReservePriceBranch.zeroReserve ∧
      (b, (0 : Rat)) ∈ td ∧ (b, (0 : Rat)) ∈ wd := by
  unfold get_token_pair_price_and_white_token_reserves at hok
  split at hok
  · exact absurd hok (by simp)
  · rename_i hcond
    have hble : (blockRangeList fromBlock toBlock).length ≤ reservesList.length := by
      rw [blockRangeList_length]
      omega
    simp only [Except.ok.injEq, Prod.mk.injEq] at hok
    obtain ⟨htd, hwd⟩ := hok
    subst htd
    subst hwd
    constructor
    · constructor
      · rw [List.map_map]
        have hcomp : (Prod.fst ∘ fun p : Nat × (Nat × Nat) =>
            (p.1, (pair_price_and_white_reserve p.2.1 p.2.2 decimals0 decimals1
              w).1)) = Prod.fst := rfl
        rw [hcomp, List.map_fst_zip _ _ hble]
      · rw [List.map_map]
        have hcomp : (Prod.fst ∘ fun p : Nat × (Nat × Nat) =>
            (p.1, (pair_price_and_white_reserve p.2.1 p.2.2 decimals0 decimals1
              w).2)) = Prod.fst := rfl
        rw [hcomp, List.map_fst_zip _ _ hble]
    · intro b r0 r1 hmem hz
      refine ⟨pair_price_branch_zero r0 r1 decimals0 decimals1 w hz, ?_, ?_⟩
      · refine List.mem_map.mpr ⟨(b, (r0, r1)), hmem, ?_⟩
        rw [pair_price_and_white_reserve_zero r0 r1 decimals0 decimals1 w hz]
      · refine List.mem_map.mpr ⟨(b, (r0, r1)), hmem, ?_⟩
        rw [pair_price_and_white_reserve_zero r0 r1 decimals0 decimals1 w hz]

/-- Witness for claim C8: over blocks 1..2 with raw reserves (0, 5) and
(3, 0), both blocks take the zero branch and both dictionaries keep an
entry per block. -/
theorem claim_C8_witness :
    pair_price_branch 0 5 0 0 true = ReservePriceBranch.zeroReserve ∧
    ((1 : Nat), (0 : Rat)) ∈ [((1 : Nat), (0 : Rat)), (2, 0)] ∧
    ((1 : Nat), (0 : Rat)) ∈ [((1 : Nat), (0 : Rat)), (2, 0)] := by
  have hok : get_token_pair_price_and_white_token_reserves c8ReservesList 1 2 0 0
      true = Except.ok ([(1, 0), (2, 0)], [(1, 0), (2, 0)]) := by
    norm_num [get_token_pair_price_and_white_token_reserves, c8ReservesList,
      blockRangeList, List.range'_succ, pair_price_and_white_reserve,
      scaleReserve]
  exact (claim_C8_zero_reserve_blocks c8ReservesList 1 2 0 0 true
    [(1, 0), (2, 0)] [(1, 0), (2, 0)] hok).2 1 0 5 (by decide)
    (Or.inl (by norm_num [scaleReserve]))
